import Mathlib

/-!
Verification of the exoplanet photometry pipeline (src/main.py).

The development shallowly embeds the two numerically interesting parts of the
program over exact arithmetic (ℚ for executable claims, ℝ for the convergence
claim):

* the scalar Kalman filter recursion of DataStream.kalman_filter
  (self.x / self.cov held in a FilterState, the not-a-number sentinel for the
  uninitialized filter modelled by an Option);
* the Julian-Day-to-Gregorian conversion DataStream.jd_to_datetime, with
  math.modf / math.trunc / round modelled exactly (pymodf, qtrunc, pyround,
  truncation toward zero and round-half-to-even), and the datetime.datetime
  constructor range validation modelled by mkDatetime returning an Option.
-/

namespace Exoplanets

/-! ### Filter parameters (src/main.py lines 11-13) -/

def FILTER_R : ℚ := 0.002

def FILTER_Q : ℚ := 0.1

def TIME_CRT : ℚ := 0.000

/-! ### Scalar Kalman filter (DataStream.kalman_filter, lines 64-85)

The DataStream constructor fixes A = 1, B = 0, C = 1, R = FILTER_R,
Q = FILTER_Q; the step function is embedded with all five coefficients as
parameters, exactly as the method body reads them from self. -/

/-- The mutable pair self.x / self.cov of DataStream. -/
@[ext]
structure FilterState (α : Type) where
  x : α
  cov : α
deriving Repr

/-- First-call branch of kalman_filter (lines 72-73): the filter is seeded
from the measurement alone. -/
def kalman_init {α : Type} [DivisionRing α] (C Q measurement : α) :
    FilterState α :=
  ⟨(1 / C) * measurement, (1 / C) * Q * (1 / C)⟩

/-- Steady-state branch of kalman_filter (lines 75-83): predict, gain,
correct. -/
def kalman_update {α : Type} [DivisionRing α] (A B C R Q : α)
    (s : FilterState α) (measurement : α) : FilterState α :=
  let u : α := 0
  let pred_x := (A * s.x) + (B * u)
  let pred_cov := ((A * s.cov) * A) + R
  let k := pred_cov * C * (1 / ((C * pred_cov * C) + Q))
  ⟨pred_x + k * (measurement - (C * pred_x)),
   pred_cov - (k * C * pred_cov)⟩

/-- One call of DataStream.kalman_filter: dispatch on the not-a-number
sentinel (line 71), return the filtered value together with the new state. -/
def kalman_filter {α : Type} [DivisionRing α] (A B C R Q : α)
    (s : Option (FilterState α)) (measurement : α) : α × FilterState α :=
  match s with
  | none => let t := kalman_init C Q measurement; (t.x, t)
  | some st => let t := kalman_update A B C R Q st measurement; (t.x, t)

/-- Folding the filter over a measurement list, as load_data does record by
record (lines 49-59). -/
def kalman_fold {α : Type} [DivisionRing α] (A B C R Q : α)
    (s : Option (FilterState α)) (ms : List α) : Option (FilterState α) :=
  ms.foldl (fun st m => some (kalman_filter A B C R Q st m).2) s

/-- The sequence of filtered magnitudes (the f_mag column of load_data). -/
def kalman_outputs {α : Type} [DivisionRing α] (A B C R Q : α)
    (s : Option (FilterState α)) : List α → List α
  | [] => []
  | m :: ms =>
      (kalman_filter A B C R Q s m).1 ::
        kalman_outputs A B C R Q (some (kalman_filter A B C R Q s m).2) ms

/-- State after n calls of kalman_filter, all fed the same measurement. -/
def kalman_iter {α : Type} [DivisionRing α] (A B C R Q m : α) :
    ℕ → Option (FilterState α)
  | 0 => none
  | n + 1 => some (kalman_filter A B C R Q (kalman_iter A B C R Q m n) m).2

/-- estimateCovariance after n+1 constant-measurement steps. -/
def covSeq {α : Type} [DivisionRing α] (R Q m : α) (n : ℕ) : α :=
  (kalman_iter 1 0 1 R Q m (n + 1)).elim 0 FilterState.cov

/-- estimate after n+1 constant-measurement steps. -/
def estSeq {α : Type} [DivisionRing α] (R Q m : α) (n : ℕ) : α :=
  (kalman_iter 1 0 1 R Q m (n + 1)).elim 0 FilterState.x

/-! ### Julian-Day-to-calendar conversion (DataStream.jd_to_datetime,
lines 87-129)

math.modf splits off the fractional part, the integer part being truncated
toward zero; math.trunc truncates toward zero; round is round-half-to-even.
All are exact on ℚ. -/

/-- Floor of a rational, executably (Rat.floor_def shows it is Int.floor). -/
def qfloor (q : ℚ) : ℤ := q.num / q.den

/-- Ceiling of a rational, executably. -/
def qceil (q : ℚ) : ℤ := -qfloor (-q)

/-- math.trunc: round toward zero. -/
def qtrunc (q : ℚ) : ℤ := if 0 ≤ q then qfloor q else qceil q

/-- math.modf: (fractional part, integer part), both truncated toward zero. -/
def pymodf (q : ℚ) : ℚ × ℤ := (q - qtrunc q, qtrunc q)

/-- Python round with one argument: nearest integer, ties to even. -/
def pyround (q : ℚ) : ℤ :=
  if q - qfloor q < 1 / 2 then qfloor q
  else if 1 / 2 < q - qfloor q then qfloor q + 1
  else if qfloor q % 2 = 0 then qfloor q else qfloor q + 1

/-- The record built by datetime.datetime in jd_to_datetime. -/
structure CivilTimestamp where
  year : ℤ
  month : ℤ
  day : ℤ
  hour : ℤ
  minute : ℤ
  second : ℤ
  microsecond : ℤ
deriving DecidableEq, Repr

/-- Line 94: F, I = math.modf(jd + 0.5); integer part. -/
def jdI (jd : ℚ) : ℤ := (pymodf (jd + 0.5)).2

/-- Line 94: F, I = math.modf(jd + 0.5); fractional part. -/
def jdF (jd : ℚ) : ℚ := (pymodf (jd + 0.5)).1

/-- Line 96: A = math.trunc((I - 1867216.25) / 36524.25). -/
def calA (I : ℤ) : ℤ := qtrunc (((I : ℚ) - 1867216.25) / 36524.25)

/-- Lines 97-100: the Gregorian-reform branch on I > 2299160. -/
def calB (I : ℤ) : ℤ :=
  if I > 2299160 then I + 1 + calA I - qtrunc ((calA I : ℚ) / 4) else I

/-- Line 101: C = B + 1524. -/
def calC (I : ℤ) : ℤ := calB I + 1524

/-- Line 102: D = math.trunc((C - 122.1) / 365.25). -/
def calD (I : ℤ) : ℤ := qtrunc (((calC I : ℚ) - 122.1) / 365.25)

/-- Line 103: E = math.trunc(365.25 * D). -/
def calE (I : ℤ) : ℤ := qtrunc (365.25 * (calD I : ℚ))

/-- Line 104: G = math.trunc((C - E) / 30.6001). -/
def calG (I : ℤ) : ℤ := qtrunc (((calC I : ℚ) - (calE I : ℚ)) / 30.6001)

/-- Line 105: day = C - E + F - math.trunc(30.6001 * G), still fractional. -/
def calDay (jd : ℚ) : ℚ :=
  ((calC (jdI jd) : ℚ) - (calE (jdI jd) : ℚ)) + jdF jd -
    (qtrunc (30.6001 * (calG (jdI jd) : ℚ)) : ℚ)

/-- Lines 106-109: month from G, thresholds compared at 13.5. -/
def calMonth (I : ℤ) : ℤ :=
  if (calG I : ℚ) < 13.5 then calG I - 1 else calG I - 13

/-- Lines 110-113: year from D, thresholds compared at 2.5. -/
def calYear (I : ℤ) : ℤ :=
  if (calMonth I : ℚ) > 2.5 then calD I - 4716 else calD I - 4715

/-- Line 118: hours = frac_days * 24. -/
def calHours (jd : ℚ) : ℚ := (pymodf (calDay jd)).1 * 24

/-- Line 121: mins = hours * 60, hours being the fractional remainder. -/
def calMins (jd : ℚ) : ℚ := (pymodf (calHours jd)).1 * 60

/-- Line 124: secs = mins * 60, mins being the fractional remainder. -/
def calSecs (jd : ℚ) : ℚ := (pymodf (calMins jd)).1 * 60

/-- Line 127: micro = round(secs * 1.e6). -/
def calMicro (jd : ℚ) : ℤ := pyround ((pymodf (calSecs jd)).1 * 1000000)

/-- The seven arguments passed to datetime.datetime on line 129. -/
def dateFields (jd : ℚ) : CivilTimestamp :=
  ⟨calYear (jdI jd), calMonth (jdI jd), (pymodf (calDay jd)).2,
   (pymodf (calHours jd)).2, (pymodf (calMins jd)).2,
   (pymodf (calSecs jd)).2, calMicro jd⟩

/-- Python leap-year rule, used by the datetime.datetime range check. -/
def isLeapYear (y : ℤ) : Bool :=
  y % 4 == 0 && (y % 100 != 0 || y % 400 == 0)

/-- Month lengths as validated by datetime.datetime. -/
def daysInMonth (y m : ℤ) : ℤ :=
  if m = 2 then (if isLeapYear y then 29 else 28)
  else if m = 4 ∨ m = 6 ∨ m = 9 ∨ m = 11 then 30
  else 31

/-- The datetime.datetime constructor: returns the timestamp when every field
is in range (MINYEAR = 1, MAXYEAR = 9999), otherwise raises, modelled as
none. -/
def mkDatetime (t : CivilTimestamp) : Option CivilTimestamp :=
  if 1 ≤ t.year ∧ t.year ≤ 9999 ∧ 1 ≤ t.month ∧ t.month ≤ 12 ∧
      1 ≤ t.day ∧ t.day ≤ daysInMonth t.year t.month ∧
      0 ≤ t.hour ∧ t.hour ≤ 23 ∧ 0 ≤ t.minute ∧ t.minute ≤ 59 ∧
      0 ≤ t.second ∧ t.second ≤ 59 ∧
      0 ≤ t.microsecond ∧ t.microsecond ≤ 999999 then
    some t
  else
    none

/-- DataStream.jd_to_datetime: field computation followed by the
datetime.datetime range check. -/
def jd_to_datetime (jd : ℚ) : Option CivilTimestamp :=
  mkDatetime (dateFields jd)

/-- Strict ordering of calendar dates (year, month, day lexicographically). -/
def dateLt (t₁ t₂ : CivilTimestamp) : Prop :=
  t₁.year < t₂.year ∨
    (t₁.year = t₂.year ∧
      (t₁.month < t₂.month ∨ (t₁.month = t₂.month ∧ t₁.day < t₂.day)))

/-! ### Toolbox: exact evaluation of qfloor, qtrunc, pymodf, pyround -/

theorem qfloor_eq (q : ℚ) : qfloor q = ⌊q⌋ := Rat.floor_def.symm

theorem qceil_eq (q : ℚ) : qceil q = ⌈q⌉ := by
  rw [qceil, qfloor_eq, Int.floor_neg, neg_neg]

theorem qfloor_le (q : ℚ) : (qfloor q : ℚ) ≤ q := by
  rw [qfloor_eq]; exact Int.floor_le q

theorem lt_qfloor_add_one (q : ℚ) : q < qfloor q + 1 := by
  rw [qfloor_eq]; exact_mod_cast Int.lt_floor_add_one q

theorem qfloor_eq_of (q : ℚ) (n : ℤ) (h1 : (n : ℚ) ≤ q) (h2 : q < n + 1) :
    qfloor q = n := by
  rw [qfloor_eq]
  exact Int.floor_eq_iff.2 ⟨h1, by exact_mod_cast h2⟩

theorem qtrunc_of_nonneg {q : ℚ} (h : 0 ≤ q) : qtrunc q = qfloor q := if_pos h

theorem qtrunc_eq_of (q : ℚ) (n : ℤ) (hn : 0 ≤ n) (h1 : (n : ℚ) ≤ q)
    (h2 : q < n + 1) : qtrunc q = n := by
  have h0 : (0 : ℚ) ≤ q := le_trans (by exact_mod_cast hn) h1
  rw [qtrunc_of_nonneg h0]
  exact qfloor_eq_of q n h1 h2

theorem qtrunc_bounds (q : ℚ) (n : ℤ) (hn : 0 < n) (h : qtrunc q = n) :
    (n : ℚ) ≤ q ∧ q < n + 1 := by
  by_cases h0 : 0 ≤ q
  · rw [qtrunc_of_nonneg h0, qfloor_eq] at h
    obtain ⟨a, b⟩ := Int.floor_eq_iff.1 h
    exact ⟨a, by exact_mod_cast b⟩
  · exfalso
    push_neg at h0
    rw [qtrunc, if_neg (not_le.2 h0), qceil_eq] at h
    have : ⌈q⌉ ≤ 0 := Int.ceil_le.2 (by exact_mod_cast h0.le)
    omega

theorem qtrunc_range (q : ℚ) (lo hi : ℤ) (h0 : 0 ≤ q) (hlo : (lo : ℚ) ≤ q)
    (hhi : q < hi + 1) : lo ≤ qtrunc q ∧ qtrunc q ≤ hi := by
  rw [qtrunc_of_nonneg h0, qfloor_eq]
  constructor
  · exact Int.le_floor.2 hlo
  · rw [← Int.lt_add_one_iff, Int.floor_lt]
    exact_mod_cast hhi

theorem pymodf_fst (q : ℚ) : (pymodf q).1 = q - qtrunc q := rfl

theorem pymodf_snd (q : ℚ) : (pymodf q).2 = qtrunc q := rfl

theorem pymodf_frac_bounds (q : ℚ) (h : 0 ≤ q) :
    0 ≤ (pymodf q).1 ∧ (pymodf q).1 < 1 := by
  rw [pymodf_fst, qtrunc_of_nonneg h]
  constructor
  · linarith [qfloor_le q]
  · linarith [lt_qfloor_add_one q]

theorem pyround_eq_low (q : ℚ) (n : ℤ) (hf : qfloor q = n)
    (h : q - n < 1 / 2) : pyround q = n := by
  rw [pyround, hf, if_pos h]

theorem pyround_eq_high (q : ℚ) (n : ℤ) (hf : qfloor q = n)
    (h : 1 / 2 < q - n) : pyround q = n + 1 := by
  rw [pyround, hf, if_neg (by linarith), if_pos h]

theorem pyround_eq_half_odd (q : ℚ) (n : ℤ) (hf : qfloor q = n)
    (hh : q - n = 1 / 2) (ho : n % 2 = 1) : pyround q = n + 1 := by
  rw [pyround, hf, if_neg (by rw [hh]; exact lt_irrefl _),
    if_neg (by rw [hh]; exact lt_irrefl _), if_neg (by omega)]

theorem pyround_cases (q : ℚ) :
    pyround q = qfloor q ∨ pyround q = qfloor q + 1 := by
  rw [pyround]
  split_ifs <;> simp

theorem pyround_bounds (q : ℚ) (h0 : 0 ≤ q) (h1 : q < 1000000) :
    0 ≤ pyround q ∧ pyround q ≤ 1000000 := by
  have hf0 : 0 ≤ qfloor q := by
    rw [qfloor_eq]; exact Int.floor_nonneg.2 h0
  have hf1 : qfloor q ≤ 999999 := by
    rw [qfloor_eq, ← Int.lt_add_one_iff, Int.floor_lt]
    exact_mod_cast h1
  rcases pyround_cases q with h | h <;> rw [h] <;> omega

/-! ### Basic structure of the filter recursion -/

theorem kalman_fold_some {α : Type} [DivisionRing α] (A B C R Q : α)
    (s : FilterState α) (ms : List α) :
    kalman_fold A B C R Q (some s) ms =
      some (ms.foldl (kalman_update A B C R Q) s) := by
  induction ms generalizing s with
  | nil => rfl
  | cons m ms ih =>
      rw [kalman_fold, List.foldl_cons, List.foldl_cons, ← kalman_fold, ih]
      rfl

theorem kalman_fold_cons {α : Type} [DivisionRing α] (A B C R Q : α)
    (m : α) (ms : List α) :
    kalman_fold A B C R Q none (m :: ms) =
      some (ms.foldl (kalman_update A B C R Q) (kalman_init C Q m)) := by
  rw [kalman_fold, List.foldl_cons, ← kalman_fold, ← kalman_fold_some]
  rfl

/-- C2: the first call of step(m) with C = 1 returns m and sets
estimateCovariance to Q; in general the initialization puts the estimate at
measurement / C and the covariance at Q / C². -/
theorem kalman_first_step (A B R Q m : ℚ) :
    kalman_filter A B 1 R Q none m = (m, ⟨m, Q⟩) ∧
    ∀ C : ℚ, kalman_init C Q m = ⟨m / C, Q / C ^ 2⟩ := by
  constructor
  · simp [kalman_filter, kalman_init]
  · intro C
    rw [kalman_init]
    simp only [FilterState.mk.injEq]
    constructor <;> ring

/-- C8: on magnitudes −0.09398 then −0.09350 with R = 0.002 and Q = 0.1, the
first filtered magnitude is the first raw magnitude exactly and the second
lies strictly between the two raw magnitudes. -/
theorem kalman_two_record_scenario :
    ∃ f₂ : ℚ,
      kalman_outputs 1 0 1 FILTER_R FILTER_Q none [-0.09398, -0.09350] =
        [-0.09398, f₂] ∧ -0.09398 < f₂ ∧ f₂ < -0.09350 := by
  refine ⟨-0.09398 + (51 / 101) * 0.00048, ?_, by norm_num, by norm_num⟩
  norm_num [kalman_outputs, kalman_filter, kalman_init, kalman_update,
    FILTER_R, FILTER_Q]

theorem kalman_init_one {α : Type} [DivisionRing α] (Q m : α) :
    kalman_init 1 Q m = ⟨m, Q⟩ := by
  rw [kalman_init]
  simp

theorem kalman_update_x {α : Type} [Field α] (R Q : α) (s : FilterState α)
    (m : α) :
    (kalman_update 1 0 1 R Q s m).x =
      s.x + (s.cov + R) * (1 / (s.cov + R + Q)) * (m - s.x) := by
  rw [kalman_update]
  simp only []
  ring_nf

theorem kalman_update_cov {α : Type} [Field α] (R Q : α) (s : FilterState α)
    (m : α) :
    (kalman_update 1 0 1 R Q s m).cov =
      (s.cov + R) - (s.cov + R) * (1 / (s.cov + R + Q)) * (s.cov + R) := by
  rw [kalman_update]
  simp only []
  ring_nf

theorem kalman_update_cov_closed {α : Type} [Field α] (R Q : α)
    (s : FilterState α) (m : α) (hden : s.cov + R + Q ≠ 0) :
    (kalman_update 1 0 1 R Q s m).cov = ((s.cov + R) * Q) / (s.cov + R + Q) := by
  rw [kalman_update_cov]
  field_simp
  ring

theorem kalman_update_cov_pos {α : Type} [LinearOrderedField α] (R Q : α)
    (hR : 0 < R) (hQ : 0 < Q) (s : FilterState α) (m : α) (hc : 0 ≤ s.cov) :
    0 < (kalman_update 1 0 1 R Q s m).cov := by
  have hp : 0 < s.cov + R := by linarith
  have hd : 0 < s.cov + R + Q := by linarith
  rw [kalman_update_cov_closed R Q s m (ne_of_gt hd)]
  positivity

theorem kalman_foldl_cov_pos (R Q : ℚ) (hR : 0 < R) (hQ : 0 < Q) :
    ∀ (ms : List ℚ) (s : FilterState ℚ), 0 < s.cov →
      0 < (ms.foldl (kalman_update 1 0 1 R Q) s).cov := by
  intro ms
  induction ms with
  | nil => intro s hs; exact hs
  | cons m ms ih =>
      intro s hs
      rw [List.foldl_cons]
      exact ih _ (kalman_update_cov_pos R Q hR hQ s m hs.le)

/-- C1: with positive R and Q, estimateCovariance equals Q after the first
call and stays nonnegative after every further step. -/
theorem kalman_cov_nonneg (R Q : ℚ) (hR : 0 < R) (hQ : 0 < Q) (m : ℚ)
    (ms : List ℚ) :
    (kalman_init 1 Q m).cov = Q ∧
    ∀ s : FilterState ℚ,
      kalman_fold 1 0 1 R Q none (m :: ms) = some s → 0 ≤ s.cov := by
  constructor
  · rw [kalman_init_one]
  · intro s h
    rw [kalman_fold_cons, Option.some.injEq] at h
    subst h
    have : 0 < (ms.foldl (kalman_update 1 0 1 R Q) (kalman_init 1 Q m)).cov := by
      apply kalman_foldl_cov_pos R Q hR hQ
      rw [kalman_init_one]
      exact hQ
    linarith

theorem kalman_cov_nonneg_witness :
    (0 : ℚ) < FILTER_R ∧ (0 : ℚ) < FILTER_Q ∧
    ((kalman_init 1 FILTER_Q 3).cov = FILTER_Q ∧
      ∀ s : FilterState ℚ,
        kalman_fold 1 0 1 FILTER_R FILTER_Q none (3 :: [2]) = some s →
          0 ≤ s.cov) :=
  ⟨by norm_num [FILTER_R], by norm_num [FILTER_Q],
    kalman_cov_nonneg FILTER_R FILTER_Q (by norm_num [FILTER_R])
      (by norm_num [FILTER_Q]) 3 [2]⟩

theorem kalman_foldl_x_bounds (R Q : ℚ) (hR : 0 < R) (hQ : 0 < Q) :
    ∀ (ms : List ℚ) (s : FilterState ℚ) (lo hi : ℚ), 0 < s.cov →
      lo ≤ s.x → s.x ≤ hi →
      ms.foldl min lo ≤ (ms.foldl (kalman_update 1 0 1 R Q) s).x ∧
        (ms.foldl (kalman_update 1 0 1 R Q) s).x ≤ ms.foldl max hi := by
  intro ms
  induction ms with
  | nil => intro s lo hi _ hlo hhi; exact ⟨hlo, hhi⟩
  | cons m ms ih =>
      intro s lo hi hc hlo hhi
      rw [List.foldl_cons, List.foldl_cons, List.foldl_cons]
      have hp : 0 < s.cov + R := by linarith
      have hd : 0 < s.cov + R + Q := by linarith
      have hk0 : 0 ≤ (s.cov + R) * (1 / (s.cov + R + Q)) := by positivity
      have hk1 : (s.cov + R) * (1 / (s.cov + R + Q)) ≤ 1 := by
        rw [mul_one_div]
        exact div_le_one_of_le₀ (by linarith) hd.le
      apply ih _ (min lo m) (max hi m)
        (kalman_update_cov_pos R Q hR hQ s m hc.le)
      · rw [kalman_update_x]
        have h1 : min lo m ≤ s.x := le_trans (min_le_left _ _) hlo
        have h2 : min lo m ≤ m := min_le_right _ _
        nlinarith [mul_nonneg (sub_nonneg.2 hk1) (sub_nonneg.2 h1),
          mul_nonneg hk0 (sub_nonneg.2 h2)]
      · rw [kalman_update_x]
        have h1 : s.x ≤ max hi m := le_trans hhi (le_max_left _ _)
        have h2 : m ≤ max hi m := le_max_right _ _
        nlinarith [mul_nonneg (sub_nonneg.2 hk1) (sub_nonneg.2 h1),
          mul_nonneg hk0 (sub_nonneg.2 h2)]

/-- C10: with positive R and Q, every estimate stays inside the closed
interval spanned by the measurements seen so far. -/
theorem kalman_estimate_bounds (R Q : ℚ) (hR : 0 < R) (hQ : 0 < Q)
    (m : ℚ) (ms : List ℚ) (s : FilterState ℚ)
    (h : kalman_fold 1 0 1 R Q none (m :: ms) = some s) :
    ms.foldl min m ≤ s.x ∧ s.x ≤ ms.foldl max m := by
  rw [kalman_fold_cons, Option.some.injEq] at h
  subst h
  apply kalman_foldl_x_bounds R Q hR hQ ms (kalman_init 1 Q m) m m
  · rw [kalman_init_one]; exact hQ
  · rw [kalman_init_one]
  · rw [kalman_init_one]

theorem kalman_estimate_bounds_witness :
    (0 : ℚ) < FILTER_R ∧ (0 : ℚ) < FILTER_Q ∧
    kalman_fold 1 0 1 FILTER_R FILTER_Q none (3 :: [5]) =
      some (([5] : List ℚ).foldl (kalman_update 1 0 1 FILTER_R FILTER_Q)
        (kalman_init 1 FILTER_Q 3)) ∧
    (([5] : List ℚ).foldl min 3 ≤
        (([5] : List ℚ).foldl (kalman_update 1 0 1 FILTER_R FILTER_Q)
          (kalman_init 1 FILTER_Q 3)).x ∧
      (([5] : List ℚ).foldl (kalman_update 1 0 1 FILTER_R FILTER_Q)
          (kalman_init 1 FILTER_Q 3)).x ≤ ([5] : List ℚ).foldl max 3) :=
  ⟨by norm_num [FILTER_R], by norm_num [FILTER_Q], kalman_fold_cons _ _ _ _ _ 3 [5],
    kalman_estimate_bounds FILTER_R FILTER_Q (by norm_num [FILTER_R])
      (by norm_num [FILTER_Q]) 3 [5] _ (kalman_fold_cons _ _ _ _ _ 3 [5])⟩

theorem kalman_update_cov_congr {α : Type} [DivisionRing α] (A B C R Q : α)
    (s t : FilterState α) (m m' : α) (h : s.cov = t.cov) :
    (kalman_update A B C R Q s m).cov = (kalman_update A B C R Q t m').cov := by
  rw [kalman_update, kalman_update]
  simp [h]

theorem kalman_foldl_cov_congr (A B C R Q : ℚ) :
    ∀ (ms1 ms2 : List ℚ), ms1.length = ms2.length →
      ∀ s t : FilterState ℚ, s.cov = t.cov →
        (ms1.foldl (kalman_update A B C R Q) s).cov =
          (ms2.foldl (kalman_update A B C R Q) t).cov := by
  intro ms1
  induction ms1 with
  | nil =>
      intro ms2 hlen s t h
      rw [List.length_nil] at hlen
      rw [List.eq_nil_of_length_eq_zero hlen.symm]
      exact h
  | cons m ms ih =>
      intro ms2 hlen s t h
      cases ms2 with
      | nil => simp at hlen
      | cons m' ms2' =>
          simp only [List.length_cons, Nat.succ.injEq] at hlen
          rw [List.foldl_cons, List.foldl_cons]
          exact ih ms2' hlen _ _
            (kalman_update_cov_congr A B C R Q s t m m' h)

/-- C9: the covariance trajectory depends only on the number of steps and on
R and Q, never on the measurement values. -/
theorem kalman_cov_measurement_independent (R Q : ℚ) (ms1 ms2 : List ℚ)
    (hlen : ms1.length = ms2.length) (i : ℕ) :
    Option.map FilterState.cov (kalman_fold 1 0 1 R Q none (ms1.take i)) =
      Option.map FilterState.cov (kalman_fold 1 0 1 R Q none (ms2.take i)) := by
  have hl : (ms1.take i).length = (ms2.take i).length := by
    rw [List.length_take, List.length_take, hlen]
  cases h1 : ms1.take i with
  | nil =>
      cases h2 : ms2.take i with
      | nil => rfl
      | cons m' t' => rw [h1, h2] at hl; simp at hl
  | cons m t =>
      cases h2 : ms2.take i with
      | nil => rw [h1, h2] at hl; simp at hl
      | cons m' t' =>
          rw [h1, h2] at hl
          simp only [List.length_cons, Nat.succ.injEq] at hl
          rw [kalman_fold_cons, kalman_fold_cons]
          simp only [Option.map]
          exact congrArg some (kalman_foldl_cov_congr 1 0 1 R Q t t' hl _ _ rfl)

theorem kalman_cov_measurement_independent_witness :
    ([1, 2] : List ℚ).length = ([5, 7] : List ℚ).length ∧
    Option.map FilterState.cov
        (kalman_fold 1 0 1 FILTER_R FILTER_Q none (([1, 2] : List ℚ).take 2)) =
      Option.map FilterState.cov
        (kalman_fold 1 0 1 FILTER_R FILTER_Q none (([5, 7] : List ℚ).take 2)) :=
  ⟨rfl, kalman_cov_measurement_independent FILTER_R FILTER_Q [1, 2] [5, 7] rfl 2⟩

theorem kalman_outputs_length {α : Type} [DivisionRing α] (A B C R Q : α)
    (s : Option (FilterState α)) (ms : List α) :
    (kalman_outputs A B C R Q s ms).length = ms.length := by
  induction ms generalizing s with
  | nil => rfl
  | cons m ms ih => simp [kalman_outputs, ih]

theorem kalman_outputs_take {α : Type} [DivisionRing α] (A B C R Q : α) :
    ∀ (ms : List α) (s : Option (FilterState α)) (n : ℕ),
      kalman_outputs A B C R Q s (ms.take n) =
        (kalman_outputs A B C R Q s ms).take n := by
  intro ms
  induction ms with
  | nil => intro s n; simp [kalman_outputs]
  | cons m ms ih =>
      intro s n
      cases n with
      | zero => simp [kalman_outputs]
      | succ n =>
          rw [List.take_succ_cons]
          simp only [kalman_outputs, List.take_succ_cons]
          rw [ih]

theorem take_getLastD {α : Type} :
    ∀ (l : List α) (i : ℕ) (d : α), i < l.length →
      (l.take (i + 1)).getLastD d = l.getD i d := by
  intro l
  induction l with
  | nil => intro i d h; simp at h
  | cons a l ih =>
      intro i d h
      cases i with
      | zero =>
          cases l with
          | nil => rfl
          | cons b t => rfl
      | succ i =>
          have hi : i < l.length := by simpa using h
          rw [List.take_succ_cons, List.getD_cons_succ]
          have step : (a :: l.take (i + 1)).getLastD d =
              (l.take (i + 1)).getLastD a := by
            cases h' : l.take (i + 1) <;> simp [List.getLastD]
          rw [step, ih i a hi]
          rw [List.getD_eq_getElem l a hi, List.getD_eq_getElem l d hi]

/-- C6: the filtered magnitude at index i of a full run equals the last
output of replaying measurements 0..i through a fresh filter. -/
theorem kalman_causality (A B C R Q : ℚ) (ms : List ℚ) (i : ℕ)
    (hi : i < ms.length) :
    (kalman_outputs A B C R Q none (ms.take (i + 1))).getLastD 0 =
      (kalman_outputs A B C R Q none ms).getD i 0 := by
  rw [kalman_outputs_take]
  exact take_getLastD _ i 0 (by rw [kalman_outputs_length]; exact hi)

theorem kalman_causality_witness :
    (1 : ℕ) < ([4, 6, 8] : List ℚ).length ∧
    (kalman_outputs 1 0 1 FILTER_R FILTER_Q none
        (([4, 6, 8] : List ℚ).take 2)).getLastD 0 =
      (kalman_outputs 1 0 1 FILTER_R FILTER_Q none
        ([4, 6, 8] : List ℚ)).getD 1 0 :=
  ⟨by simp, kalman_causality 1 0 1 FILTER_R FILTER_Q [4, 6, 8] 1 (by simp)⟩

/-! ### Calendar conversion at the J2000 epoch -/

/-- C3: Julian Day 2451545.0 converts to 2000-01-01T12:00:00.000000. -/
theorem jd_to_datetime_j2000 :
    jd_to_datetime 2451545 = some ⟨2000, 1, 1, 12, 0, 0, 0⟩ := by
  have hI : qtrunc ((2451545 : ℚ) + 0.5) = 2451545 :=
    qtrunc_eq_of _ _ (by norm_num) (by norm_num) (by norm_num)
  have hIr : jdI 2451545 = 2451545 := hI
  have hF : jdF 2451545 = 1 / 2 := by
    rw [jdF, pymodf_fst, hI]; norm_num
  have hA : calA 2451545 = 15 := by
    rw [calA]
    exact qtrunc_eq_of _ _ (by norm_num) (by push_cast; norm_num)
      (by push_cast; norm_num)
  have hB : calB 2451545 = 2451558 := by
    rw [calB, if_pos (by norm_num), hA]
    have h4 : qtrunc (((15 : ℤ) : ℚ) / 4) = 3 :=
      qtrunc_eq_of _ _ (by norm_num) (by push_cast; norm_num)
        (by push_cast; norm_num)
    rw [h4]
    decide
  have hC : calC 2451545 = 2453082 := by
    rw [calC, hB]
    decide
  have hD : calD 2451545 = 6715 := by
    rw [calD, hC]
    exact qtrunc_eq_of _ _ (by norm_num) (by push_cast; norm_num)
      (by push_cast; norm_num)
  have hE : calE 2451545 = 2452653 := by
    rw [calE, hD]
    exact qtrunc_eq_of _ _ (by norm_num) (by push_cast; norm_num)
      (by push_cast; norm_num)
  have hG : calG 2451545 = 14 := by
    rw [calG, hC, hE]
    exact qtrunc_eq_of _ _ (by norm_num) (by push_cast; norm_num)
      (by push_cast; norm_num)
  have h428 : qtrunc (30.6001 * ((14 : ℤ) : ℚ)) = 428 :=
    qtrunc_eq_of _ _ (by norm_num) (by push_cast; norm_num)
      (by push_cast; norm_num)
  have hday : calDay 2451545 = 3 / 2 := by
    rw [calDay, hIr, hC, hE, hG, hF, h428]
    push_cast
    norm_num
  have hmonth : calMonth 2451545 = 1 := by
    rw [calMonth, hG, if_neg (by push_cast; norm_num)]
    decide
  have hyear : calYear 2451545 = 2000 := by
    rw [calYear, hmonth, if_neg (by push_cast; norm_num), hD]
    decide
  have hq32 : qtrunc ((3 : ℚ) / 2) = 1 :=
    qtrunc_eq_of _ _ (by norm_num) (by norm_num) (by norm_num)
  have hdayI : (pymodf (calDay 2451545)).2 = 1 := by
    rw [pymodf_snd, hday, hq32]
  have hdayfrac : (pymodf (calDay 2451545)).1 = 1 / 2 := by
    rw [pymodf_fst, hday, hq32]; norm_num
  have hhours : calHours 2451545 = 12 := by
    rw [calHours, hdayfrac]; norm_num
  have hq12 : qtrunc (12 : ℚ) = 12 :=
    qtrunc_eq_of _ _ (by norm_num) (by norm_num) (by norm_num)
  have hhourI : (pymodf (calHours 2451545)).2 = 12 := by
    rw [pymodf_snd, hhours, hq12]
  have hhourfrac : (pymodf (calHours 2451545)).1 = 0 := by
    rw [pymodf_fst, hhours, hq12]; norm_num
  have hmins : calMins 2451545 = 0 := by
    rw [calMins, hhourfrac]; norm_num
  have hq0 : qtrunc (0 : ℚ) = 0 :=
    qtrunc_eq_of _ _ (by norm_num) (by norm_num) (by norm_num)
  have hminI : (pymodf (calMins 2451545)).2 = 0 := by
    rw [pymodf_snd, hmins, hq0]
  have hminfrac : (pymodf (calMins 2451545)).1 = 0 := by
    rw [pymodf_fst, hmins, hq0]; norm_num
  have hsecs : calSecs 2451545 = 0 := by
    rw [calSecs, hminfrac]; norm_num
  have hsecI : (pymodf (calSecs 2451545)).2 = 0 := by
    rw [pymodf_snd, hsecs, hq0]
  have hsecfrac : (pymodf (calSecs 2451545)).1 = 0 := by
    rw [pymodf_fst, hsecs, hq0]; norm_num
  have hmicro : calMicro 2451545 = 0 := by
    rw [calMicro, hsecfrac]
    have hf0 : qfloor ((0 : ℚ) * 1000000) = 0 :=
      qfloor_eq_of _ _ (by norm_num) (by norm_num)
    exact pyround_eq_low _ _ hf0 (by push_cast; norm_num)
  rw [jd_to_datetime, dateFields, hIr, hyear, hmonth, hdayI, hhourI, hminI,
    hsecI, hmicro]
  rw [mkDatetime, if_pos]
  norm_num [daysInMonth, isLeapYear]

/-! ### The Gregorian reform boundary (I = 2299160 versus I = 2299161) -/

/-- C4: a Julian Day whose integer part I of jd + 0.5 is 2299160 takes the
Julian branch (B = I), one with I = 2299161 takes the Gregorian correction
branch, and the calendar date still increases strictly across the boundary
(1582-10-04 versus 1582-10-15). -/
theorem jd_gregorian_boundary (jd₁ jd₂ : ℚ) (h₁ : jdI jd₁ = 2299160)
    (h₂ : jdI jd₂ = 2299161) :
    (¬ 2299160 < jdI jd₁ ∧ calB (jdI jd₁) = jdI jd₁) ∧
    (2299160 < jdI jd₂ ∧
      calB (jdI jd₂) = jdI jd₂ + 1 + calA (jdI jd₂) -
        qtrunc ((calA (jdI jd₂) : ℚ) / 4)) ∧
    dateLt (dateFields jd₁) (dateFields jd₂) := by
  have hq₁ : qtrunc (jd₁ + 0.5) = 2299160 := h₁
  have hq₂ : qtrunc (jd₂ + 0.5) = 2299161 := h₂
  have hb₁ := qtrunc_bounds (jd₁ + 0.5) 2299160 (by norm_num) hq₁
  have hb₂ := qtrunc_bounds (jd₂ + 0.5) 2299161 (by norm_num) hq₂
  have hF₁ : jdF jd₁ = jd₁ + 0.5 - 2299160 := by
    rw [jdF, pymodf_fst, hq₁]; norm_num
  have hF₂ : jdF jd₂ = jd₂ + 0.5 - 2299161 := by
    rw [jdF, pymodf_fst, hq₂]; norm_num
  have hF₁b : 0 ≤ jdF jd₁ ∧ jdF jd₁ < 1 := by
    rw [hF₁]
    constructor
    · have := hb₁.1; push_cast at this ⊢; linarith
    · have := hb₁.2; push_cast at this ⊢; linarith
  have hF₂b : 0 ≤ jdF jd₂ ∧ jdF jd₂ < 1 := by
    rw [hF₂]
    constructor
    · have := hb₂.1; push_cast at this ⊢; linarith
    · have := hb₂.2; push_cast at this ⊢; linarith
  -- evaluation at I = 2299160 (Julian branch)
  have hA₁ : calA 2299160 = 11 := by
    rw [calA]
    exact qtrunc_eq_of _ _ (by norm_num) (by push_cast; norm_num)
      (by push_cast; norm_num)
  have hB₁ : calB 2299160 = 2299160 := by
    rw [calB, if_neg (by norm_num)]
  have hC₁ : calC 2299160 = 2300684 := by rw [calC, hB₁]; decide
  have hD₁ : calD 2299160 = 6298 := by
    rw [calD, hC₁]
    exact qtrunc_eq_of _ _ (by norm_num) (by push_cast; norm_num)
      (by push_cast; norm_num)
  have hE₁ : calE 2299160 = 2300344 := by
    rw [calE, hD₁]
    exact qtrunc_eq_of _ _ (by norm_num) (by push_cast; norm_num)
      (by push_cast; norm_num)
  have hG₁ : calG 2299160 = 11 := by
    rw [calG, hC₁, hE₁]
    exact qtrunc_eq_of _ _ (by norm_num) (by push_cast; norm_num)
      (by push_cast; norm_num)
  have h336 : qtrunc (30.6001 * ((11 : ℤ) : ℚ)) = 336 :=
    qtrunc_eq_of _ _ (by norm_num) (by push_cast; norm_num)
      (by push_cast; norm_num)
  have hmonth₁ : calMonth 2299160 = 10 := by
    rw [calMonth, hG₁, if_pos (by push_cast; norm_num)]
    decide
  have hyear₁ : calYear 2299160 = 1582 := by
    rw [calYear, hmonth₁, if_pos (by push_cast; norm_num), hD₁]
    decide
  have hday₁ : calDay jd₁ = 4 + jdF jd₁ := by
    rw [calDay, h₁, hC₁, hE₁, hG₁, h336]
    push_cast
    ring
  have hdayI₁ : (pymodf (calDay jd₁)).2 = 4 := by
    rw [pymodf_snd, hday₁]
    exact qtrunc_eq_of _ _ (by norm_num)
      (by push_cast; linarith [hF₁b.1]) (by push_cast; linarith [hF₁b.2])
  -- evaluation at I = 2299161 (Gregorian branch)
  have hA₂ : calA 2299161 = 11 := by
    rw [calA]
    exact qtrunc_eq_of _ _ (by norm_num) (by push_cast; norm_num)
      (by push_cast; norm_num)
  have h11d4 : qtrunc (((11 : ℤ) : ℚ) / 4) = 2 :=
    qtrunc_eq_of _ _ (by norm_num) (by push_cast; norm_num)
      (by push_cast; norm_num)
  have hB₂ : calB 2299161 = 2299171 := by
    rw [calB, if_pos (by norm_num), hA₂, h11d4]
    decide
  have hC₂ : calC 2299161 = 2300695 := by rw [calC, hB₂]; decide
  have hD₂ : calD 2299161 = 6298 := by
    rw [calD, hC₂]
    exact qtrunc_eq_of _ _ (by norm_num) (by push_cast; norm_num)
      (by push_cast; norm_num)
  have hE₂ : calE 2299161 = 2300344 := by
    rw [calE, hD₂]
    exact qtrunc_eq_of _ _ (by norm_num) (by push_cast; norm_num)
      (by push_cast; norm_num)
  have hG₂ : calG 2299161 = 11 := by
    rw [calG, hC₂, hE₂]
    exact qtrunc_eq_of _ _ (by norm_num) (by push_cast; norm_num)
      (by push_cast; norm_num)
  have hmonth₂ : calMonth 2299161 = 10 := by
    rw [calMonth, hG₂, if_pos (by push_cast; norm_num)]
    decide
  have hyear₂ : calYear 2299161 = 1582 := by
    rw [calYear, hmonth₂, if_pos (by push_cast; norm_num), hD₂]
    decide
  have hday₂ : calDay jd₂ = 15 + jdF jd₂ := by
    rw [calDay, h₂, hC₂, hE₂, hG₂, h336]
    push_cast
    ring
  have hdayI₂ : (pymodf (calDay jd₂)).2 = 15 := by
    rw [pymodf_snd, hday₂]
    exact qtrunc_eq_of _ _ (by norm_num)
      (by push_cast; linarith [hF₂b.1]) (by push_cast; linarith [hF₂b.2])
  refine ⟨⟨by rw [h₁]; norm_num, by rw [h₁, hB₁]⟩,
    ⟨by rw [h₂]; norm_num, ?_⟩, ?_⟩
  · rw [h₂, calB, if_pos (by norm_num)]
  · have hy1 : (dateFields jd₁).year = 1582 := by
      show calYear (jdI jd₁) = 1582
      rw [h₁, hyear₁]
    have hy2 : (dateFields jd₂).year = 1582 := by
      show calYear (jdI jd₂) = 1582
      rw [h₂, hyear₂]
    have hm1 : (dateFields jd₁).month = 10 := by
      show calMonth (jdI jd₁) = 10
      rw [h₁, hmonth₁]
    have hm2 : (dateFields jd₂).month = 10 := by
      show calMonth (jdI jd₂) = 10
      rw [h₂, hmonth₂]
    have hd1 : (dateFields jd₁).day = 4 := by
      show (pymodf (calDay jd₁)).2 = 4
      exact hdayI₁
    have hd2 : (dateFields jd₂).day = 15 := by
      show (pymodf (calDay jd₂)).2 = 15
      exact hdayI₂
    simp only [dateLt]
    rw [hy1, hy2, hm1, hm2, hd1, hd2]
    norm_num

theorem jd_gregorian_boundary_witness :
    jdI 2299159.75 = 2299160 ∧ jdI 2299160.75 = 2299161 ∧
    ((¬ 2299160 < jdI 2299159.75 ∧ calB (jdI 2299159.75) = jdI 2299159.75) ∧
      (2299160 < jdI 2299160.75 ∧
        calB (jdI 2299160.75) = jdI 2299160.75 + 1 + calA (jdI 2299160.75) -
          qtrunc ((calA (jdI 2299160.75) : ℚ) / 4)) ∧
      dateLt (dateFields 2299159.75) (dateFields 2299160.75)) :=
  ⟨qtrunc_eq_of _ _ (by norm_num) (by norm_num) (by norm_num),
   qtrunc_eq_of _ _ (by norm_num) (by norm_num) (by norm_num),
   jd_gregorian_boundary 2299159.75 2299160.75
     (qtrunc_eq_of _ _ (by norm_num) (by norm_num) (by norm_num))
     (qtrunc_eq_of _ _ (by norm_num) (by norm_num) (by norm_num))⟩

/-! ### The microsecond-rounding failure of jd_to_datetime -/

/-- C5 counterexample: at Julian Day 2451544.5 + 0.9999995/86400 (half a
microsecond before 2000-01-01T00:00:01) the fractional seconds round up to a
full second, the microsecond argument becomes 1000000, and the
datetime.datetime constructor rejects it: the conversion fails. -/
theorem jd_to_datetime_micro_overflow :
    (dateFields (2451544.5 + 0.9999995 / 86400)).microsecond = 1000000 ∧
    jd_to_datetime (2451544.5 + 0.9999995 / 86400) = none := by
  have hq : qtrunc ((2451544.5 + 0.9999995 / 86400 : ℚ) + 0.5) = 2451545 :=
    qtrunc_eq_of _ _ (by norm_num) (by norm_num) (by norm_num)
  have hIr : jdI (2451544.5 + 0.9999995 / 86400) = 2451545 := hq
  have hF : jdF (2451544.5 + 0.9999995 / 86400) = 0.9999995 / 86400 := by
    rw [jdF, pymodf_fst, hq]; norm_num
  have hA : calA 2451545 = 15 := by
    rw [calA]
    exact qtrunc_eq_of _ _ (by norm_num) (by push_cast; norm_num)
      (by push_cast; norm_num)
  have hB : calB 2451545 = 2451558 := by
    rw [calB, if_pos (by norm_num), hA]
    have h4 : qtrunc (((15 : ℤ) : ℚ) / 4) = 3 :=
      qtrunc_eq_of _ _ (by norm_num) (by push_cast; norm_num)
        (by push_cast; norm_num)
    rw [h4]
    decide
  have hC : calC 2451545 = 2453082 := by rw [calC, hB]; decide
  have hD : calD 2451545 = 6715 := by
    rw [calD, hC]
    exact qtrunc_eq_of _ _ (by norm_num) (by push_cast; norm_num)
      (by push_cast; norm_num)
  have hE : calE 2451545 = 2452653 := by
    rw [calE, hD]
    exact qtrunc_eq_of _ _ (by norm_num) (by push_cast; norm_num)
      (by push_cast; norm_num)
  have hG : calG 2451545 = 14 := by
    rw [calG, hC, hE]
    exact qtrunc_eq_of _ _ (by norm_num) (by push_cast; norm_num)
      (by push_cast; norm_num)
  have h428 : qtrunc (30.6001 * ((14 : ℤ) : ℚ)) = 428 :=
    qtrunc_eq_of _ _ (by norm_num) (by push_cast; norm_num)
      (by push_cast; norm_num)
  have hday : calDay (2451544.5 + 0.9999995 / 86400) =
      1 + 0.9999995 / 86400 := by
    rw [calDay, hIr, hC, hE, hG, hF, h428]
    push_cast
    norm_num
  have hq1 : qtrunc ((1 : ℚ) + 0.9999995 / 86400) = 1 :=
    qtrunc_eq_of _ _ (by norm_num) (by norm_num) (by norm_num)
  have hdayfrac : (pymodf (calDay (2451544.5 + 0.9999995 / 86400))).1 =
      0.9999995 / 86400 := by
    rw [pymodf_fst, hday, hq1]; norm_num
  have hhours : calHours (2451544.5 + 0.9999995 / 86400) =
      0.9999995 / 3600 := by
    rw [calHours, hdayfrac]; norm_num
  have hqh : qtrunc ((0.9999995 : ℚ) / 3600) = 0 :=
    qtrunc_eq_of _ _ (by norm_num) (by norm_num) (by norm_num)
  have hhourfrac : (pymodf (calHours (2451544.5 + 0.9999995 / 86400))).1 =
      0.9999995 / 3600 := by
    rw [pymodf_fst, hhours, hqh]; norm_num
  have hmins : calMins (2451544.5 + 0.9999995 / 86400) = 0.9999995 / 60 := by
    rw [calMins, hhourfrac]; norm_num
  have hqm : qtrunc ((0.9999995 : ℚ) / 60) = 0 :=
    qtrunc_eq_of _ _ (by norm_num) (by norm_num) (by norm_num)
  have hminfrac : (pymodf (calMins (2451544.5 + 0.9999995 / 86400))).1 =
      0.9999995 / 60 := by
    rw [pymodf_fst, hmins, hqm]; norm_num
  have hsecs : calSecs (2451544.5 + 0.9999995 / 86400) = 0.9999995 := by
    rw [calSecs, hminfrac]; norm_num
  have hqs : qtrunc ((0.9999995 : ℚ)) = 0 :=
    qtrunc_eq_of _ _ (by norm_num) (by norm_num) (by norm_num)
  have hsecfrac : (pymodf (calSecs (2451544.5 + 0.9999995 / 86400))).1 =
      0.9999995 := by
    rw [pymodf_fst, hsecs, hqs]; norm_num
  have hmicro : (dateFields (2451544.5 + 0.9999995 / 86400)).microsecond =
      1000000 := by
    show calMicro (2451544.5 + 0.9999995 / 86400) = 1000000
    rw [calMicro, hsecfrac]
    have hf : qfloor ((0.9999995 : ℚ) * 1000000) = 999999 :=
      qfloor_eq_of _ _ (by norm_num) (by push_cast; norm_num)
    have := pyround_eq_half_odd ((0.9999995 : ℚ) * 1000000) 999999 hf
      (by push_cast; norm_num) (by decide)
    rw [this]
    decide
  refine ⟨hmicro, ?_⟩
  rw [jd_to_datetime, mkDatetime]
  split_ifs with hcon
  · exfalso
    have hle := hcon.2.2.2.2.2.2.2.2.2.2.2.2.2
    rw [hmicro] at hle
    exact absurd hle (by decide)
  · rfl

/-! ### Field-range analysis of the calendar conversion -/

theorem calB_ge (I : ℤ) (_hI : 0 ≤ I) : I ≤ calB I := by
  rw [calB]
  split_ifs with h
  · have hI1 : (2299161 : ℤ) ≤ I := by omega
    have hIq : (2299161 : ℚ) ≤ (I : ℚ) := by exact_mod_cast hI1
    have hx : (0 : ℚ) ≤ ((I : ℚ) - 1867216.25) / 36524.25 :=
      div_nonneg (by linarith) (by norm_num)
    have hA0 : 0 ≤ calA I := by
      rw [calA, qtrunc_of_nonneg hx, qfloor_eq]
      exact Int.le_floor.2 (by exact_mod_cast hx)
    have hA0q : (0 : ℚ) ≤ (calA I : ℚ) := by exact_mod_cast hA0
    have hA4 : qtrunc ((calA I : ℚ) / 4) ≤ calA I := by
      have h0 : (0 : ℚ) ≤ (calA I : ℚ) / 4 := by positivity
      rw [qtrunc_of_nonneg h0, qfloor_eq]
      have hmono : ⌊(calA I : ℚ) / 4⌋ ≤ ⌊(calA I : ℚ)⌋ :=
        Int.floor_le_floor (div_le_self hA0q (by norm_num))
      rwa [Int.floor_intCast] at hmono
    omega
  · exact le_refl I

theorem dayInt_bounds (G CE : ℤ) (h4 : 4 ≤ G) (h15 : G ≤ 15)
    (hlo : 30.6001 * (G : ℚ) ≤ (CE : ℚ))
    (hhi : (CE : ℚ) < 30.6001 * ((G : ℚ) + 1)) :
    1 ≤ CE - qtrunc (30.6001 * (G : ℚ)) ∧
      CE - qtrunc (30.6001 * (G : ℚ)) ≤ 31 := by
  interval_cases G
  · have hq : qtrunc (30.6001 * ((4 : ℤ) : ℚ)) = 122 :=
      qtrunc_eq_of _ _ (by norm_num) (by push_cast; norm_num)
        (by push_cast; norm_num)
    have h1 : ((122 : ℤ) : ℚ) < (CE : ℚ) :=
      lt_of_lt_of_le (by push_cast; norm_num) hlo
    have h2 : (CE : ℚ) < ((154 : ℤ) : ℚ) := lt_trans hhi (by push_cast; norm_num)
    have h1a : (122 : ℤ) < CE := by exact_mod_cast h1
    have h2a : CE < 154 := by exact_mod_cast h2
    rw [hq]
    omega
  · have hq : qtrunc (30.6001 * ((5 : ℤ) : ℚ)) = 153 :=
      qtrunc_eq_of _ _ (by norm_num) (by push_cast; norm_num)
        (by push_cast; norm_num)
    have h1 : ((153 : ℤ) : ℚ) < (CE : ℚ) :=
      lt_of_lt_of_le (by push_cast; norm_num) hlo
    have h2 : (CE : ℚ) < ((184 : ℤ) : ℚ) := lt_trans hhi (by push_cast; norm_num)
    have h1a : (153 : ℤ) < CE := by exact_mod_cast h1
    have h2a : CE < 184 := by exact_mod_cast h2
    rw [hq]
    omega
  · have hq : qtrunc (30.6001 * ((6 : ℤ) : ℚ)) = 183 :=
      qtrunc_eq_of _ _ (by norm_num) (by push_cast; norm_num)
        (by push_cast; norm_num)
    have h1 : ((183 : ℤ) : ℚ) < (CE : ℚ) :=
      lt_of_lt_of_le (by push_cast; norm_num) hlo
    have h2 : (CE : ℚ) < ((215 : ℤ) : ℚ) := lt_trans hhi (by push_cast; norm_num)
    have h1a : (183 : ℤ) < CE := by exact_mod_cast h1
    have h2a : CE < 215 := by exact_mod_cast h2
    rw [hq]
    omega
  · have hq : qtrunc (30.6001 * ((7 : ℤ) : ℚ)) = 214 :=
      qtrunc_eq_of _ _ (by norm_num) (by push_cast; norm_num)
        (by push_cast; norm_num)
    have h1 : ((214 : ℤ) : ℚ) < (CE : ℚ) :=
      lt_of_lt_of_le (by push_cast; norm_num) hlo
    have h2 : (CE : ℚ) < ((245 : ℤ) : ℚ) := lt_trans hhi (by push_cast; norm_num)
    have h1a : (214 : ℤ) < CE := by exact_mod_cast h1
    have h2a : CE < 245 := by exact_mod_cast h2
    rw [hq]
    omega
  · have hq : qtrunc (30.6001 * ((8 : ℤ) : ℚ)) = 244 :=
      qtrunc_eq_of _ _ (by norm_num) (by push_cast; norm_num)
        (by push_cast; norm_num)
    have h1 : ((244 : ℤ) : ℚ) < (CE : ℚ) :=
      lt_of_lt_of_le (by push_cast; norm_num) hlo
    have h2 : (CE : ℚ) < ((276 : ℤ) : ℚ) := lt_trans hhi (by push_cast; norm_num)
    have h1a : (244 : ℤ) < CE := by exact_mod_cast h1
    have h2a : CE < 276 := by exact_mod_cast h2
    rw [hq]
    omega
  · have hq : qtrunc (30.6001 * ((9 : ℤ) : ℚ)) = 275 :=
      qtrunc_eq_of _ _ (by norm_num) (by push_cast; norm_num)
        (by push_cast; norm_num)
    have h1 : ((275 : ℤ) : ℚ) < (CE : ℚ) :=
      lt_of_lt_of_le (by push_cast; norm_num) hlo
    have h2 : (CE : ℚ) < ((307 : ℤ) : ℚ) := lt_trans hhi (by push_cast; norm_num)
    have h1a : (275 : ℤ) < CE := by exact_mod_cast h1
    have h2a : CE < 307 := by exact_mod_cast h2
    rw [hq]
    omega
  · have hq : qtrunc (30.6001 * ((10 : ℤ) : ℚ)) = 306 :=
      qtrunc_eq_of _ _ (by norm_num) (by push_cast; norm_num)
        (by push_cast; norm_num)
    have h1 : ((306 : ℤ) : ℚ) < (CE : ℚ) :=
      lt_of_lt_of_le (by push_cast; norm_num) hlo
    have h2 : (CE : ℚ) < ((337 : ℤ) : ℚ) := lt_trans hhi (by push_cast; norm_num)
    have h1a : (306 : ℤ) < CE := by exact_mod_cast h1
    have h2a : CE < 337 := by exact_mod_cast h2
    rw [hq]
    omega
  · have hq : qtrunc (30.6001 * ((11 : ℤ) : ℚ)) = 336 :=
      qtrunc_eq_of _ _ (by norm_num) (by push_cast; norm_num)
        (by push_cast; norm_num)
    have h1 : ((336 : ℤ) : ℚ) < (CE : ℚ) :=
      lt_of_lt_of_le (by push_cast; norm_num) hlo
    have h2 : (CE : ℚ) < ((368 : ℤ) : ℚ) := lt_trans hhi (by push_cast; norm_num)
    have h1a : (336 : ℤ) < CE := by exact_mod_cast h1
    have h2a : CE < 368 := by exact_mod_cast h2
    rw [hq]
    omega
  · have hq : qtrunc (30.6001 * ((12 : ℤ) : ℚ)) = 367 :=
      qtrunc_eq_of _ _ (by norm_num) (by push_cast; norm_num)
        (by push_cast; norm_num)
    have h1 : ((367 : ℤ) : ℚ) < (CE : ℚ) :=
      lt_of_lt_of_le (by push_cast; norm_num) hlo
    have h2 : (CE : ℚ) < ((398 : ℤ) : ℚ) := lt_trans hhi (by push_cast; norm_num)
    have h1a : (367 : ℤ) < CE := by exact_mod_cast h1
    have h2a : CE < 398 := by exact_mod_cast h2
    rw [hq]
    omega
  · have hq : qtrunc (30.6001 * ((13 : ℤ) : ℚ)) = 397 :=
      qtrunc_eq_of _ _ (by norm_num) (by push_cast; norm_num)
        (by push_cast; norm_num)
    have h1 : ((397 : ℤ) : ℚ) < (CE : ℚ) :=
      lt_of_lt_of_le (by push_cast; norm_num) hlo
    have h2 : (CE : ℚ) < ((429 : ℤ) : ℚ) := lt_trans hhi (by push_cast; norm_num)
    have h1a : (397 : ℤ) < CE := by exact_mod_cast h1
    have h2a : CE < 429 := by exact_mod_cast h2
    rw [hq]
    omega
  · have hq : qtrunc (30.6001 * ((14 : ℤ) : ℚ)) = 428 :=
      qtrunc_eq_of _ _ (by norm_num) (by push_cast; norm_num)
        (by push_cast; norm_num)
    have h1 : ((428 : ℤ) : ℚ) < (CE : ℚ) :=
      lt_of_lt_of_le (by push_cast; norm_num) hlo
    have h2 : (CE : ℚ) < ((460 : ℤ) : ℚ) := lt_trans hhi (by push_cast; norm_num)
    have h1a : (428 : ℤ) < CE := by exact_mod_cast h1
    have h2a : CE < 460 := by exact_mod_cast h2
    rw [hq]
    omega
  · have hq : qtrunc (30.6001 * ((15 : ℤ) : ℚ)) = 459 :=
      qtrunc_eq_of _ _ (by norm_num) (by push_cast; norm_num)
        (by push_cast; norm_num)
    have h1 : ((459 : ℤ) : ℚ) < (CE : ℚ) :=
      lt_of_lt_of_le (by push_cast; norm_num) hlo
    have h2 : (CE : ℚ) < ((490 : ℤ) : ℚ) := lt_trans hhi (by push_cast; norm_num)
    have h1a : (459 : ℤ) < CE := by exact_mod_cast h1
    have h2a : CE < 490 := by exact_mod_cast h2
    rw [hq]
    omega

set_option maxHeartbeats 1000000 in
/-- C5 amended: for every nonnegative julianDay the computed month, day,
hour, minute and second lie in their declared ranges, while the microsecond
lies in 0..1000000; when it reaches 1000000 (fractional seconds rounding up
to a full second) the conversion fails instead of returning a timestamp. -/
theorem dateFields_field_ranges (jd : ℚ) (h : 0 ≤ jd) :
    (1 ≤ (dateFields jd).month ∧ (dateFields jd).month ≤ 12) ∧
    (1 ≤ (dateFields jd).day ∧ (dateFields jd).day ≤ 31) ∧
    (0 ≤ (dateFields jd).hour ∧ (dateFields jd).hour ≤ 23) ∧
    (0 ≤ (dateFields jd).minute ∧ (dateFields jd).minute ≤ 59) ∧
    (0 ≤ (dateFields jd).second ∧ (dateFields jd).second ≤ 59) ∧
    (0 ≤ (dateFields jd).microsecond ∧
      (dateFields jd).microsecond ≤ 1000000) ∧
    ((dateFields jd).microsecond = 1000000 → jd_to_datetime jd = none) := by
  have hq0 : (0 : ℚ) ≤ jd + 0.5 := by linarith
  have hI0 : 0 ≤ jdI jd := by
    show 0 ≤ qtrunc (jd + 0.5)
    rw [qtrunc_of_nonneg hq0, qfloor_eq]
    exact Int.le_floor.2 (by exact_mod_cast hq0)
  have hFb : 0 ≤ jdF jd ∧ jdF jd < 1 := pymodf_frac_bounds (jd + 0.5) hq0
  have hBge := calB_ge (jdI jd) hI0
  have hC0 : (1524 : ℤ) ≤ calC (jdI jd) := by rw [calC]; omega
  have hC0q : (1524 : ℚ) ≤ (calC (jdI jd) : ℚ) := by exact_mod_cast hC0
  -- bounds on D = trunc((C - 122.1) / 365.25)
  have hargD : (0 : ℚ) ≤ ((calC (jdI jd) : ℚ) - 122.1) / 365.25 :=
    div_nonneg (by linarith) (by norm_num)
  have hDfl : calD (jdI jd) = ⌊((calC (jdI jd) : ℚ) - 122.1) / 365.25⌋ := by
    rw [calD, qtrunc_of_nonneg hargD, qfloor_eq]
  have hDle : (calD (jdI jd) : ℚ) ≤ ((calC (jdI jd) : ℚ) - 122.1) / 365.25 := by
    rw [hDfl]; exact Int.floor_le _
  have hDlt : ((calC (jdI jd) : ℚ) - 122.1) / 365.25 <
      (calD (jdI jd) : ℚ) + 1 := by
    rw [hDfl]; exact Int.lt_floor_add_one _
  have hD1 : 365.25 * (calD (jdI jd) : ℚ) ≤ (calC (jdI jd) : ℚ) - 122.1 := by
    rw [le_div_iff₀ (by norm_num : (0 : ℚ) < 365.25)] at hDle
    linarith
  have hD2 : (calC (jdI jd) : ℚ) - 122.1 <
      365.25 * ((calD (jdI jd) : ℚ) + 1) := by
    rw [div_lt_iff₀ (by norm_num : (0 : ℚ) < 365.25)] at hDlt
    linarith
  have hD0 : (0 : ℚ) ≤ (calD (jdI jd) : ℚ) := by
    have : 0 ≤ calD (jdI jd) := by
      rw [hDfl]; exact Int.le_floor.2 (by exact_mod_cast hargD)
    exact_mod_cast this
  -- bounds on E = trunc(365.25 * D)
  have hargE : (0 : ℚ) ≤ 365.25 * (calD (jdI jd) : ℚ) :=
    mul_nonneg (by norm_num) hD0
  have hEfl : calE (jdI jd) = ⌊365.25 * (calD (jdI jd) : ℚ)⌋ := by
    rw [calE, qtrunc_of_nonneg hargE, qfloor_eq]
  have hE1 : (calE (jdI jd) : ℚ) ≤ 365.25 * (calD (jdI jd) : ℚ) := by
    rw [hEfl]; exact Int.floor_le _
  have hE2 : 365.25 * (calD (jdI jd) : ℚ) < (calE (jdI jd) : ℚ) + 1 := by
    rw [hEfl]; exact Int.lt_floor_add_one _
  -- bounds on C - E
  have hCE1 : (123 : ℤ) ≤ calC (jdI jd) - calE (jdI jd) := by
    have hq : ((122 : ℤ) : ℚ) < ((calC (jdI jd) - calE (jdI jd) : ℤ) : ℚ) := by
      push_cast
      linarith
    have := (by exact_mod_cast hq : (122 : ℤ) < calC (jdI jd) - calE (jdI jd))
    omega
  have hCE2 : calC (jdI jd) - calE (jdI jd) ≤ 488 := by
    have hq : ((calC (jdI jd) - calE (jdI jd) : ℤ) : ℚ) < ((489 : ℤ) : ℚ) := by
      push_cast
      linarith
    have := (by exact_mod_cast hq :
      calC (jdI jd) - calE (jdI jd) < (489 : ℤ))
    omega
  have hCE1q : (123 : ℚ) ≤ (calC (jdI jd) : ℚ) - (calE (jdI jd) : ℚ) := by
    have : ((123 : ℤ) : ℚ) ≤ ((calC (jdI jd) - calE (jdI jd) : ℤ) : ℚ) := by
      exact_mod_cast hCE1
    push_cast at this
    linarith
  have hCE2q : (calC (jdI jd) : ℚ) - (calE (jdI jd) : ℚ) ≤ 488 := by
    have : ((calC (jdI jd) - calE (jdI jd) : ℤ) : ℚ) ≤ ((488 : ℤ) : ℚ) := by
      exact_mod_cast hCE2
    push_cast at this
    linarith
  -- bounds on G = trunc((C - E) / 30.6001)
  have hargG : (0 : ℚ) ≤ ((calC (jdI jd) : ℚ) - (calE (jdI jd) : ℚ)) / 30.6001 :=
    div_nonneg (by linarith) (by norm_num)
  have hGfl : calG (jdI jd) =
      ⌊((calC (jdI jd) : ℚ) - (calE (jdI jd) : ℚ)) / 30.6001⌋ := by
    rw [calG, qtrunc_of_nonneg hargG, qfloor_eq]
  have hG4 : 4 ≤ calG (jdI jd) := by
    rw [hGfl]
    apply Int.le_floor.2
    rw [le_div_iff₀ (by norm_num : (0 : ℚ) < 30.6001)]
    push_cast
    linarith
  have hG15 : calG (jdI jd) ≤ 15 := by
    rw [hGfl, ← Int.lt_add_one_iff, Int.floor_lt]
    rw [div_lt_iff₀ (by norm_num : (0 : ℚ) < 30.6001)]
    push_cast
    linarith
  have hGle : (calG (jdI jd) : ℚ) ≤
      ((calC (jdI jd) : ℚ) - (calE (jdI jd) : ℚ)) / 30.6001 := by
    rw [hGfl]; exact Int.floor_le _
  have hGlt : ((calC (jdI jd) : ℚ) - (calE (jdI jd) : ℚ)) / 30.6001 <
      (calG (jdI jd) : ℚ) + 1 := by
    rw [hGfl]; exact Int.lt_floor_add_one _
  have hGlo : 30.6001 * (calG (jdI jd) : ℚ) ≤
      (calC (jdI jd) : ℚ) - (calE (jdI jd) : ℚ) := by
    rw [le_div_iff₀ (by norm_num : (0 : ℚ) < 30.6001)] at hGle
    linarith
  have hGhi : (calC (jdI jd) : ℚ) - (calE (jdI jd) : ℚ) <
      30.6001 * ((calG (jdI jd) : ℚ) + 1) := by
    rw [div_lt_iff₀ (by norm_num : (0 : ℚ) < 30.6001)] at hGlt
    linarith
  have hd0 := dayInt_bounds (calG (jdI jd)) (calC (jdI jd) - calE (jdI jd))
    hG4 hG15 (by push_cast; linarith) (by push_cast; linarith)
  -- the day column
  have hdayeq : calDay jd =
      ((calC (jdI jd) - calE (jdI jd) -
        qtrunc (30.6001 * (calG (jdI jd) : ℚ)) : ℤ) : ℚ) + jdF jd := by
    rw [calDay]
    push_cast
    ring
  have hd0q1 : ((1 : ℤ) : ℚ) ≤ ((calC (jdI jd) - calE (jdI jd) -
      qtrunc (30.6001 * (calG (jdI jd) : ℚ)) : ℤ) : ℚ) := by
    exact_mod_cast hd0.1
  have hday0 : (0 : ℚ) ≤ calDay jd := by
    rw [hdayeq]
    push_cast at hd0q1 ⊢
    linarith [hFb.1]
  have hdayI : (pymodf (calDay jd)).2 =
      calC (jdI jd) - calE (jdI jd) -
        qtrunc (30.6001 * (calG (jdI jd) : ℚ)) := by
    rw [pymodf_snd, hdayeq]
    refine qtrunc_eq_of _ _ (by omega) (by linarith [hFb.1]) ?_
    push_cast
    push_cast at hd0q1
    linarith [hFb.2]
  have hdaybounds : 1 ≤ (pymodf (calDay jd)).2 ∧
      (pymodf (calDay jd)).2 ≤ 31 := by
    rw [hdayI]; exact hd0
  -- the month column
  have hmonth : 1 ≤ calMonth (jdI jd) ∧ calMonth (jdI jd) ≤ 12 := by
    rw [calMonth]
    split_ifs with h13
    · have hle : calG (jdI jd) ≤ 13 := by
        by_contra hc
        push_neg at hc
        have : (14 : ℚ) ≤ (calG (jdI jd) : ℚ) := by exact_mod_cast hc
        linarith
      omega
    · push_neg at h13
      have hge : 14 ≤ calG (jdI jd) := by
        by_contra hc
        push_neg at hc
        have : (calG (jdI jd) : ℚ) ≤ 13 := by exact_mod_cast Int.lt_add_one_iff.1 hc
        linarith
      omega
  -- time-of-day columns
  have hdayfr := pymodf_frac_bounds (calDay jd) hday0
  have hhours0 : (0 : ℚ) ≤ calHours jd := by
    rw [calHours]; exact mul_nonneg hdayfr.1 (by norm_num)
  have hhour : 0 ≤ (pymodf (calHours jd)).2 ∧ (pymodf (calHours jd)).2 ≤ 23 := by
    rw [pymodf_snd]
    refine qtrunc_range _ 0 23 hhours0 (by push_cast; exact hhours0) ?_
    rw [calHours]
    push_cast
    have hmul := mul_lt_mul_of_pos_right hdayfr.2
      (show (0 : ℚ) < 24 by norm_num)
    linarith
  have hhourfr := pymodf_frac_bounds (calHours jd) hhours0
  have hmins0 : (0 : ℚ) ≤ calMins jd := by
    rw [calMins]; exact mul_nonneg hhourfr.1 (by norm_num)
  have hminute : 0 ≤ (pymodf (calMins jd)).2 ∧ (pymodf (calMins jd)).2 ≤ 59 := by
    rw [pymodf_snd]
    refine qtrunc_range _ 0 59 hmins0 (by push_cast; exact hmins0) ?_
    rw [calMins]
    push_cast
    have hmul := mul_lt_mul_of_pos_right hhourfr.2
      (show (0 : ℚ) < 60 by norm_num)
    linarith
  have hminfr := pymodf_frac_bounds (calMins jd) hmins0
  have hsecs0 : (0 : ℚ) ≤ calSecs jd := by
    rw [calSecs]; exact mul_nonneg hminfr.1 (by norm_num)
  have hsecond : 0 ≤ (pymodf (calSecs jd)).2 ∧ (pymodf (calSecs jd)).2 ≤ 59 := by
    rw [pymodf_snd]
    refine qtrunc_range _ 0 59 hsecs0 (by push_cast; exact hsecs0) ?_
    rw [calSecs]
    push_cast
    have hmul := mul_lt_mul_of_pos_right hminfr.2
      (show (0 : ℚ) < 60 by norm_num)
    linarith
  have hsecfr := pymodf_frac_bounds (calSecs jd) hsecs0
  have hmicro : 0 ≤ calMicro jd ∧ calMicro jd ≤ 1000000 := by
    rw [calMicro]
    refine pyround_bounds _ (mul_nonneg hsecfr.1 (by norm_num)) ?_
    have hmul := mul_lt_mul_of_pos_right hsecfr.2
      (show (0 : ℚ) < 1000000 by norm_num)
    linarith
  have hnone : (dateFields jd).microsecond = 1000000 →
      jd_to_datetime jd = none := by
    intro hm
    rw [jd_to_datetime, mkDatetime]
    split_ifs with hcon
    · exfalso
      have hle := hcon.2.2.2.2.2.2.2.2.2.2.2.2.2
      rw [hm] at hle
      exact absurd hle (by decide)
    · rfl
  exact ⟨hmonth, hdaybounds, hhour, hminute, hsecond, hmicro, hnone⟩

theorem dateFields_field_ranges_witness :
    (0 : ℚ) ≤ 2451545 ∧
    ((1 ≤ (dateFields 2451545).month ∧ (dateFields 2451545).month ≤ 12) ∧
      (1 ≤ (dateFields 2451545).day ∧ (dateFields 2451545).day ≤ 31) ∧
      (0 ≤ (dateFields 2451545).hour ∧ (dateFields 2451545).hour ≤ 23) ∧
      (0 ≤ (dateFields 2451545).minute ∧ (dateFields 2451545).minute ≤ 59) ∧
      (0 ≤ (dateFields 2451545).second ∧ (dateFields 2451545).second ≤ 59) ∧
      (0 ≤ (dateFields 2451545).microsecond ∧
        (dateFields 2451545).microsecond ≤ 1000000) ∧
      ((dateFields 2451545).microsecond = 1000000 →
        jd_to_datetime 2451545 = none)) :=
  ⟨by norm_num, dateFields_field_ranges 2451545 (by norm_num)⟩

/-! ### Constant-measurement runs and convergence -/

theorem kalman_update_fix_x {α : Type} [Field α] (R Q c m : α) :
    (kalman_update 1 0 1 R Q ⟨m, c⟩ m).x = m := by
  rw [kalman_update_x]
  simp

theorem kalman_iter_form {α : Type} [Field α] (R Q m : α) :
    ∀ n, kalman_iter 1 0 1 R Q m (n + 1) = some ⟨m, covSeq R Q m n⟩ := by
  intro n
  induction n with
  | zero =>
      simp [kalman_iter, kalman_filter, covSeq, kalman_init_one]
  | succ n ih =>
      have hstep : kalman_iter 1 0 1 R Q m (n + 1 + 1) =
          some (kalman_filter 1 0 1 R Q (kalman_iter 1 0 1 R Q m (n + 1)) m).2 :=
        rfl
      have hc : covSeq R Q m (n + 1) =
          (kalman_update 1 0 1 R Q ⟨m, covSeq R Q m n⟩ m).cov := by
        rw [covSeq, hstep, ih]
        simp [kalman_filter]
      rw [hstep, ih, hc]
      simp only [kalman_filter]
      exact congrArg some
        (FilterState.ext (kalman_update_fix_x R Q (covSeq R Q m n) m) rfl)

theorem covSeq_zero {α : Type} [Field α] (R Q m : α) : covSeq R Q m 0 = Q := by
  simp [covSeq, kalman_iter, kalman_filter, kalman_init_one]

theorem covSeq_succ {α : Type} [Field α] (R Q m : α) (n : ℕ) :
    covSeq R Q m (n + 1) =
      (covSeq R Q m n + R) - (covSeq R Q m n + R) *
        (1 / (covSeq R Q m n + R + Q)) * (covSeq R Q m n + R) := by
  have hstep : kalman_iter 1 0 1 R Q m (n + 1 + 1) =
      some (kalman_filter 1 0 1 R Q (kalman_iter 1 0 1 R Q m (n + 1)) m).2 :=
    rfl
  rw [covSeq, hstep, kalman_iter_form R Q m n]
  simp only [kalman_filter, Option.elim]
  exact kalman_update_cov R Q ⟨m, covSeq R Q m n⟩ m

theorem estSeq_eq {α : Type} [Field α] (R Q m : α) (n : ℕ) :
    estSeq R Q m n = m := by
  rw [estSeq, kalman_iter_form R Q m n]
  rfl

/-- C7: feeding a constant measurement with positive R and Q makes the
covariance sequence antitone and convergent to the fixed point covstar of
covstar = ((A² covstar + R) Q)/(A² covstar + R + Q) with A = 1, while the
estimate converges to the measurement (it is m from the first step on). -/
theorem kalman_const_convergence (R Q m : ℝ) (hR : 0 < R) (hQ : 0 < Q) :
    ∃ covstar : ℝ,
      covstar = ((1 ^ 2 * covstar + R) * Q) / (1 ^ 2 * covstar + R + Q) ∧
      Antitone (covSeq R Q m) ∧
      Filter.Tendsto (covSeq R Q m) Filter.atTop (nhds covstar) ∧
      Filter.Tendsto (estSeq R Q m) Filter.atTop (nhds m) := by
  have hs0 : (0 : ℝ) ≤ R ^ 2 + 4 * R * Q := by positivity
  have hs2 : Real.sqrt (R ^ 2 + 4 * R * Q) ^ 2 = R ^ 2 + 4 * R * Q :=
    Real.sq_sqrt hs0
  have hsnn : 0 ≤ Real.sqrt (R ^ 2 + 4 * R * Q) := Real.sqrt_nonneg _
  have hsR : R < Real.sqrt (R ^ 2 + 4 * R * Q) := by nlinarith
  have hc0 : 0 < (Real.sqrt (R ^ 2 + 4 * R * Q) - R) / 2 := by linarith
  set c : ℝ := (Real.sqrt (R ^ 2 + 4 * R * Q) - R) / 2 with hcdef
  have hfix : c ^ 2 + R * c = R * Q := by
    rw [hcdef]
    linear_combination hs2 / 4
  have hcQ : c < Q := by nlinarith
  -- one correct phase, seen as the map x ↦ ((x + R) Q)/(x + R + Q)
  have hstep : ∀ x : ℝ, c ≤ x →
      c ≤ ((x + R) * Q) / (x + R + Q) ∧ ((x + R) * Q) / (x + R + Q) ≤ x := by
    intro x hx
    have hx0 : 0 < x := lt_of_lt_of_le hc0 hx
    have hden : 0 < x + R + Q := by linarith
    constructor
    · rw [le_div_iff₀ hden]
      nlinarith [mul_nonneg (sub_nonneg.2 hx) (sub_nonneg.2 hcQ.le)]
    · rw [div_le_iff₀ hden]
      nlinarith [mul_nonneg (sub_nonneg.2 hx)
        (show (0 : ℝ) ≤ x + c + R by linarith)]
  have hsucc : ∀ n : ℕ, c ≤ covSeq R Q m n → covSeq R Q m (n + 1) =
      ((covSeq R Q m n + R) * Q) / (covSeq R Q m n + R + Q) := by
    intro n hn
    have hx0 : 0 < covSeq R Q m n := lt_of_lt_of_le hc0 hn
    have hden : covSeq R Q m n + R + Q ≠ 0 := by positivity
    rw [covSeq_succ]
    field_simp
    ring
  have hinv : ∀ n, c ≤ covSeq R Q m n := by
    intro n
    induction n with
    | zero => rw [covSeq_zero]; exact hcQ.le
    | succ n ih =>
        rw [hsucc n ih]
        exact (hstep _ ih).1
  have hanti : Antitone (covSeq R Q m) := by
    apply antitone_nat_of_succ_le
    intro n
    rw [hsucc n (hinv n)]
    exact (hstep _ (hinv n)).2
  have hbdd : BddBelow (Set.range (covSeq R Q m)) := by
    refine ⟨c, ?_⟩
    rintro y ⟨n, rfl⟩
    exact hinv n
  have htend : Filter.Tendsto (covSeq R Q m) Filter.atTop
      (nhds (⨅ n, covSeq R Q m n)) := tendsto_atTop_ciInf hanti hbdd
  set L : ℝ := ⨅ n, covSeq R Q m n with hLdef
  have hLc : c ≤ L := le_ciInf hinv
  have hL0 : 0 < L := lt_of_lt_of_le hc0 hLc
  have hdenL : 0 < L + R + Q := by linarith
  have htend1 : Filter.Tendsto (fun n => covSeq R Q m (n + 1)) Filter.atTop
      (nhds L) := htend.comp (Filter.tendsto_add_atTop_nat 1)
  have htendg : Filter.Tendsto
      (fun n => ((covSeq R Q m n + R) * Q) / (covSeq R Q m n + R + Q))
      Filter.atTop (nhds (((L + R) * Q) / (L + R + Q))) := by
    exact Filter.Tendsto.div
      ((htend.add tendsto_const_nhds).mul tendsto_const_nhds)
      ((htend.add tendsto_const_nhds).add tendsto_const_nhds)
      (ne_of_gt hdenL)
  have hfunext : (fun n => ((covSeq R Q m n + R) * Q) / (covSeq R Q m n + R + Q)) =
      fun n => covSeq R Q m (n + 1) := by
    funext n
    exact (hsucc n (hinv n)).symm
  rw [hfunext] at htendg
  have hgL : ((L + R) * Q) / (L + R + Q) = L := tendsto_nhds_unique htendg htend1
  have hquad : L ^ 2 + R * L = R * Q := by
    rw [div_eq_iff (ne_of_gt hdenL)] at hgL
    linear_combination -hgL
  have hfac : (L - c) * (L + c + R) = 0 := by linear_combination hquad - hfix
  have hLeq : L = c := by
    rcases mul_eq_zero.1 hfac with h0 | h0
    · linarith
    · exfalso; linarith
  refine ⟨c, ?_, hanti, by rw [← hLeq]; exact htend, ?_⟩
  · have hdenc : (0 : ℝ) < 1 ^ 2 * c + R + Q := by
      rw [one_pow, one_mul]; linarith
    rw [eq_div_iff (ne_of_gt hdenc), one_pow, one_mul]
    linear_combination hfix
  · have hconst : estSeq R Q m = fun _ => m := funext (estSeq_eq R Q m)
    rw [hconst]
    exact tendsto_const_nhds

theorem kalman_const_convergence_witness :
    (0 : ℝ) < 1 ∧
    (∃ covstar : ℝ,
      covstar = ((1 ^ 2 * covstar + 1) * 1) / (1 ^ 2 * covstar + 1 + 1) ∧
      Antitone (covSeq (1 : ℝ) 1 0) ∧
      Filter.Tendsto (covSeq (1 : ℝ) 1 0) Filter.atTop (nhds covstar) ∧
      Filter.Tendsto (estSeq (1 : ℝ) 1 0) Filter.atTop (nhds 0)) :=
  ⟨one_pos, kalman_const_convergence 1 1 0 one_pos one_pos⟩

end Exoplanets
